import Mathlib

/-!
# Dictation AI: the note lifecycle of `frontend/main.js`

A shallow embedding of the handlers of `frontend/main.js`.

* The page (the DOM properties and the script's globals the handlers read and
  write) is the record `Page`.  A text property is a cell: reading
  `rawTranscription.textContent` or the title gives the string last written.
* `polishedNote.innerHTML` is not a cell: the browser parses the markup assigned
  to it and serialises it again on reading.  `Page.polishedNote` is what reading
  gives; `Browser.innerHTML` maps the string assigned to the string read back.
  Assigning the empty string empties the element, which then reads as the
  empty string.
* `polishedNote.innerText`, which `sendToSlack` reads, is computed by the
  browser from the content; it is `Browser.innerText`, a function of the markup
  read back.
* An `async` handler is split at its `await`: the part that runs up to the
  `fetch` returns the new page and the request it issued (`none` when it
  returned before the `fetch`), and the continuation (`...Response`) takes the
  outcome of the `fetch`.
* `Sys` adds the requests in flight; `step` is one turn of the event loop.
-/

namespace DictationAI

/-! ## JavaScript values -/

/-- The code points `String.prototype.trim` removes: ECMAScript WhiteSpace and
LineTerminator. -/
def isJsWhiteSpace (c : Char) : Bool :=
  let n := c.toNat
  n == 0x09 || n == 0x0A || n == 0x0B || n == 0x0C || n == 0x0D || n == 0x20 ||
  n == 0xA0 || n == 0x1680 || (0x2000 ≤ n && n ≤ 0x200A) || n == 0x2028 ||
  n == 0x2029 || n == 0x202F || n == 0x205F || n == 0x3000 || n == 0xFEFF

/-- The method `s.trim()`. -/
def jsTrim (s : String) : String :=
  String.mk ((s.data.dropWhile isJsWhiteSpace).reverse.dropWhile isJsWhiteSpace).reverse

/-- The expression `s.charAt(0).toUpperCase() + s.slice(1)` (on the engine names,
which are ASCII). -/
def capitalize (s : String) : String :=
  match s.data with
  | [] => ""
  | c :: cs => String.mk (c.toUpper :: cs)

/-- The expression `v || d` for a string field `v` that may be absent: `d` when
`v` is absent or the empty string. -/
def jsOr (v : Option String) (d : String) : String :=
  match v with
  | some s => if s = "" then d else s
  | none => d

/-- Truthiness of a string field that may be absent. -/
def truthy (v : Option String) : Bool :=
  match v with
  | some s => decide (s ≠ "")
  | none => false

/-! ## Data -/

/-- A `Blob` (or `File`), by its byte size. -/
structure Blob where
  size : Nat
deriving DecidableEq, Repr

/-- The global `integrationConfigs`: `{}` at load, five strings after the
settings form was submitted. -/
structure IntegrationConfigs where
  slackWebhook : Option String
  smtpEmail : Option String
  recipientEmail : Option String
  smtpServer : Option String
  smtpPassword : Option String
deriving DecidableEq, Repr

/-- The `state` of a `MediaRecorder`. -/
inductive RecorderState where
  | inactive
  | recording
deriving DecidableEq, Repr

/-- The DOM properties and globals the handlers read and write. -/
structure Page where
  /-- The property `rawTranscription.textContent`. -/
  rawTranscription : String
  /-- The property `polishedNote.innerHTML`. -/
  polishedNote : String
  /-- The text of `.editor-title`. -/
  editorTitle : String
  /-- The property `statusText.textContent`. -/
  statusText : String
  /-- The property `sendSlackButton.disabled`. -/
  sendSlackDisabled : Bool
  /-- The property `sendEmailButton.disabled`. -/
  sendEmailDisabled : Bool
  /-- The id of the tab carrying the class `active`. -/
  activeTab : String
  isRecording : Bool
  audioChunks : List Blob
  /-- The global `mediaRecorder`: undefined, or the state of the recorder. -/
  mediaRecorder : Option RecorderState
  integrationConfigs : IntegrationConfigs
  /-- The messages shown by `alert`, oldest first. -/
  alerts : List String
deriving DecidableEq, Repr

/-- The form controls a handler reads when it runs. -/
structure Controls where
  /-- The value of the checked `engineSource` input, if one is checked. -/
  engineSource : Option String
  modelSize : String
  transcriptionApiKey : String
  polishProvider : String
  polishApiKey : String
  companyContext : String
  projectContext : String
deriving DecidableEq, Repr

/-- The multipart body of `POST /transcribe`. -/
structure TranscribeForm where
  file : Blob
  fileName : String
  source : String
  model_size : Option String
  api_key : Option String
deriving DecidableEq, Repr

/-- The JSON body of `POST /polish`. -/
structure PolishPayload where
  raw_text : String
  provider : String
  api_key : String
  company_context : String
  project_context : String
deriving DecidableEq, Repr

/-- The JSON body of `POST /integrations/slack`. -/
structure SlackPayload where
  webhook_url : String
  text : String
deriving DecidableEq, Repr

/-- The JSON body of `POST /integrations/email`: the configuration spread, then
the content and the subject. -/
structure EmailPayload where
  configs : IntegrationConfigs
  html_content : String
  subject : String
deriving DecidableEq, Repr

/-- The outcome of `await fetch(...)` followed by `response.json()`: the promise
rejects with an error message, or a response arrives, whose body parses to a
value or makes `json()` throw with a message. -/
inductive FetchResult (α : Type) where
  | rejected (message : String)
  | response (ok : Bool) (statusText : String) (json : Except String α)

/-- What the browser does with the content of `polishedNote`. -/
structure Browser where
  /-- The string `polishedNote.innerHTML` reads after the given string was
  assigned to it: the markup parsed and serialised again. -/
  innerHTML : String → String
  /-- The string `polishedNote.innerText` reads when `polishedNote.innerHTML`
  reads as the given markup. -/
  innerText : String → String

/-- The body of a `/transcribe` response. -/
structure TranscribeData where
  transcription : Option String

/-- The body of a `/polish` response. -/
structure PolishData where
  polished_text_html : Option String

/-- The body of a failed `/integrations/email` response. -/
structure EmailError where
  detail : Option String

/-! ## The handlers -/

/-- The call `alert(msg)`. -/
def alert (msg : String) (p : Page) : Page :=
  { p with alerts := p.alerts ++ [msg] }

def enableIntegrationButtons (p : Page) : Page :=
  { p with sendSlackDisabled := false, sendEmailDisabled := false }

def disableIntegrationButtons (p : Page) : Page :=
  { p with sendSlackDisabled := true, sendEmailDisabled := true }

def switchTab (tabId : String) (p : Page) : Page :=
  { p with activeTab := tabId }

def createNewNote (p : Page) : Page :=
  let p := { p with rawTranscription := "" }
  let p := { p with polishedNote := "" }
  let p := { p with editorTitle := "Untitled Note" }
  let p := { p with statusText := "Ready to record" }
  let p := disableIntegrationButtons p
  switchTab "polishedNote" p

/-- The part of `handleTranscription` before `await fetch`: the page it leaves
and the request it issued, if any. -/
def handleTranscription (ui : Controls) (audioBlob : Option Blob) (fileName : String)
    (p : Page) : Page × Option TranscribeForm :=
  match audioBlob with
  | none => ({ p with statusText := "No audio to transcribe." }, none)
  | some blob =>
    if blob.size = 0 then ({ p with statusText := "No audio to transcribe." }, none)
    else
      let p := { p with statusText := "Sending for transcription..." }
      match ui.engineSource with
      | none => (p, none) -- no input is checked: reading `.value` of null throws
      | some engineSource =>
        if engineSource = "local" then
          (p, some { file := blob, fileName := fileName, source := engineSource,
                     model_size := some ui.modelSize, api_key := none })
        else if engineSource = "openai" ∨ engineSource = "deepgram" then
          let apiKey := ui.transcriptionApiKey
          if apiKey = "" then
            let p := alert ("Please enter your " ++ capitalize engineSource ++ " API key.") p
            ({ p with statusText := "Ready to record" }, none)
          else
            (p, some { file := blob, fileName := fileName, source := engineSource,
                       model_size := none, api_key := some apiKey })
        else
          (p, some { file := blob, fileName := fileName, source := engineSource,
                     model_size := none, api_key := none })

/-- The part of `handleTranscription` after `await fetch`. -/
def handleTranscriptionResponse (r : FetchResult TranscribeData) (p : Page) : Page :=
  match r with
  | .response true _ (.ok data) =>
    let p := { p with rawTranscription := jsOr data.transcription "" }
    let p := { p with polishedNote := "" }
    let p := disableIntegrationButtons p
    let p := { p with statusText := "Transcription complete. You can now polish the text." }
    switchTab "rawTranscription" p
  | _ =>
    let p := { p with statusText := "Transcription error." }
    alert "An error occurred while contacting the transcription server." p

/-- The part of `handlePolishRequest` before `await fetch`. -/
def handlePolishRequest (ui : Controls) (p : Page) : Page × Option PolishPayload :=
  let rawText := jsTrim p.rawTranscription
  let provider := ui.polishProvider
  let apiKey := ui.polishApiKey
  if rawText = "" then (alert "There is no text to polish." p, none)
  else if apiKey = "" then
    (alert "Please enter the API key for the selected provider." p, none)
  else
    let p := { p with statusText := "Polishing with " ++ provider ++ "..." }
    let p := disableIntegrationButtons p
    (p, some { raw_text := rawText, provider := provider, api_key := apiKey,
               company_context := ui.companyContext,
               project_context := ui.projectContext })

/-- The part of `handlePolishRequest` after `await fetch`; `innerHTML` maps the
markup assigned to `polishedNote.innerHTML` to the markup read back. -/
def handlePolishResponse (innerHTML : String → String) (r : FetchResult PolishData)
    (p : Page) : Page :=
  match r with
  | .response true _ (.ok data) =>
    let html := jsOr data.polished_text_html "An error occurred while polishing."
    let p := { p with polishedNote := innerHTML html }
    let p := { p with statusText := "Text polished successfully!" }
    let p := enableIntegrationButtons p
    switchTab "polishedNote" p
  | _ =>
    let p := { p with statusText := "Error polishing text." }
    alert "An error occurred while contacting the polishing server." p

/-- The part of `sendToSlack` before `await fetch`; `innerText` is the browser's
rendering of markup as text. -/
def sendToSlack (innerText : String → String) (p : Page) : Page × Option SlackPayload :=
  let content := innerText p.polishedNote
  if content = "" then (alert "No polished text to send." p, none)
  else
    match p.integrationConfigs.slackWebhook with
    | none => (alert "Slack Webhook URL not configured." p, none)
    | some url =>
      if url = "" then (alert "Slack Webhook URL not configured." p, none)
      else
        ({ p with statusText := "Sending to Slack..." },
         some { webhook_url := url, text := content })

/-- The part of `sendToSlack` after `await fetch`; the body is not read. -/
def sendToSlackResponse (r : FetchResult Unit) (p : Page) : Page :=
  match r with
  | .response true _ _ =>
    let p := alert "Sent to Slack successfully!" p
    { p with statusText := "Sent to Slack!" }
  | _ =>
    let p := alert "Error sending to Slack." p
    { p with statusText := "Failed to send to Slack." }

/-- The part of `sendByEmail` before `await fetch`. -/
def sendByEmail (p : Page) : Page × Option EmailPayload :=
  let content := p.polishedNote
  if content = "" then (alert "No polished text to send." p, none)
  else if !truthy p.integrationConfigs.smtpEmail
      || !truthy p.integrationConfigs.recipientEmail then
    (alert "Email settings are incomplete." p, none)
  else
    ({ p with statusText := "Sending email..." },
     some { configs := p.integrationConfigs, html_content := content,
            subject := p.editorTitle })

/-- The message of the error `sendByEmail` catches. -/
def emailErrorMessage (r : FetchResult EmailError) : String :=
  match r with
  | .rejected message => message
  | .response _ _ (.error message) => message
  | .response _ _ (.ok errorData) => jsOr errorData.detail "Failed to send email"

/-- The part of `sendByEmail` after `await fetch`. -/
def sendByEmailResponse (r : FetchResult EmailError) (p : Page) : Page :=
  match r with
  | .response true _ _ =>
    let p := alert "Email sent successfully!" p
    { p with statusText := "Email sent!" }
  | _ =>
    let p := alert ("Error sending email: " ++ emailErrorMessage r) p
    { p with statusText := "Failed to send email." }

/-- The handler `integrationForm.onsubmit`: the five inputs replace the global. -/
def saveSettings (form : IntegrationConfigs) (p : Page) : Page :=
  alert "Settings saved for this session." { p with integrationConfigs := form }

/-- The click handler of `recordButton` once the microphone was granted: the
body of the `try` of `toggleRecording` after `await getUserMedia`. -/
def toggleRecordingGranted (p : Page) : Page :=
  let p := { p with isRecording := true }
  let p := { p with statusText := "Recording..." }
  let p := { p with mediaRecorder := some RecorderState.recording }
  { p with audioChunks := [] }

/-- The `catch` of `toggleRecording`: the microphone was refused. -/
def toggleRecordingDenied (p : Page) : Page :=
  { p with statusText := "Error accessing microphone." }

/-- The handler `mediaRecorder.ondataavailable`. -/
def ondataavailable (data : Blob) (p : Page) : Page :=
  { p with audioChunks := p.audioChunks ++ [data] }

/-- The handler `mediaRecorder.onstop`: it builds the blob from `audioChunks`
and calls `handleTranscription` on it. -/
def onstop (ui : Controls) (p : Page) : Page × Option TranscribeForm :=
  let p := { p with isRecording := false }
  let p := { p with statusText := "Processing..." }
  let audioBlob : Blob := { size := (p.audioChunks.map Blob.size).sum }
  handleTranscription ui (some audioBlob) "recording.wav" p

/-- The `change` listener of `audioUploadInput`; a file is its bytes and name. -/
def uploadChange (ui : Controls) (file : Option (Blob × String)) (p : Page) :
    Page × Option TranscribeForm :=
  match file with
  | some (blob, name) => handleTranscription ui (some blob) name p
  | none => (p, none)

/-! ## The event loop -/

/-- The page together with what is pending: promises of `getUserMedia`, `stop`
events of recorders, and the requests in flight, oldest first. -/
structure Sys where
  page : Page
  micRequests : Nat
  stopEvents : Nat
  transcribeInFlight : List TranscribeForm
  polishInFlight : List PolishPayload
  slackInFlight : List SlackPayload
  emailInFlight : List EmailPayload
deriving DecidableEq, Repr

/-- One turn of the event loop. -/
inductive Event where
  /-- A click on `recordButton`. -/
  | recordClick
  /-- A promise of `getUserMedia` resolves. -/
  | micGranted
  /-- A promise of `getUserMedia` rejects. -/
  | micDenied
  /-- A stopped recorder delivers its data. -/
  | dataAvailable (data : Blob)
  /-- A stopped recorder fires `stop`. -/
  | recorderStop (ui : Controls)
  /-- The upload input changes. -/
  | upload (ui : Controls) (file : Option (Blob × String))
  /-- The `/transcribe` request at index `i` settles. -/
  | transcribeResponse (i : Nat) (r : FetchResult TranscribeData)
  /-- A click on `polishButton`. -/
  | polishClick (ui : Controls)
  /-- The `/polish` request at index `i` settles. -/
  | polishResponse (i : Nat) (r : FetchResult PolishData)
  /-- A click on `sendSlackButton`. -/
  | slackClick
  /-- The `/integrations/slack` request at index `i` settles. -/
  | slackResponse (i : Nat) (r : FetchResult Unit)
  /-- A click on `sendEmailButton`. -/
  | emailClick
  /-- The `/integrations/email` request at index `i` settles. -/
  | emailResponse (i : Nat) (r : FetchResult EmailError)
  /-- A click on `newButton`. -/
  | newClick
  /-- The settings form is submitted. -/
  | settingsSubmit (form : IntegrationConfigs)
  /-- A click on a tab button. -/
  | tabClick (tabId : String)

/-- The listener `toggleRecording` up to its first `await`: when recording it
stops the recorder (which queues the recorder's `stop` event, unless the
recorder is already inactive), otherwise it asks for the microphone. -/
def toggleRecording (s : Sys) : Sys :=
  if s.page.isRecording then
    match s.page.mediaRecorder with
    | some RecorderState.recording =>
      { s with page := { s.page with mediaRecorder := some RecorderState.inactive },
               stopEvents := s.stopEvents + 1 }
    | _ => s
  else { s with micRequests := s.micRequests + 1 }

/-- Append a request that was issued, if one was. -/
def issue {α : Type} (pending : List α) (req : Option α) : List α :=
  match req with
  | some a => pending ++ [a]
  | none => pending

/-- The effect of one event, `none` when the event cannot happen in `s`: a
response needs its request in flight, a click on a disabled button is not
delivered, a recorder event needs a stopped recorder. -/
def step (dom : Browser) (s : Sys) (e : Event) : Option Sys :=
  match e with
  | .recordClick => some (toggleRecording s)
  | .micGranted =>
    if s.micRequests = 0 then none
    else some { s with page := toggleRecordingGranted s.page,
                       micRequests := s.micRequests - 1 }
  | .micDenied =>
    if s.micRequests = 0 then none
    else some { s with page := toggleRecordingDenied s.page,
                       micRequests := s.micRequests - 1 }
  | .dataAvailable data =>
    if s.stopEvents = 0 then none
    else some { s with page := ondataavailable data s.page }
  | .recorderStop ui =>
    if s.stopEvents = 0 then none
    else
      let r := onstop ui s.page
      some { s with page := r.1, stopEvents := s.stopEvents - 1,
                    transcribeInFlight := issue s.transcribeInFlight r.2 }
  | .upload ui file =>
    let r := uploadChange ui file s.page
    some { s with page := r.1, transcribeInFlight := issue s.transcribeInFlight r.2 }
  | .transcribeResponse i r =>
    match s.transcribeInFlight.get? i with
    | none => none
    | some _ =>
      some { s with page := handleTranscriptionResponse r s.page,
                    transcribeInFlight := s.transcribeInFlight.eraseIdx i }
  | .polishClick ui =>
    let r := handlePolishRequest ui s.page
    some { s with page := r.1, polishInFlight := issue s.polishInFlight r.2 }
  | .polishResponse i r =>
    match s.polishInFlight.get? i with
    | none => none
    | some _ =>
      some { s with page := handlePolishResponse dom.innerHTML r s.page,
                    polishInFlight := s.polishInFlight.eraseIdx i }
  | .slackClick =>
    if s.page.sendSlackDisabled then none
    else
      let r := sendToSlack dom.innerText s.page
      some { s with page := r.1, slackInFlight := issue s.slackInFlight r.2 }
  | .slackResponse i r =>
    match s.slackInFlight.get? i with
    | none => none
    | some _ =>
      some { s with page := sendToSlackResponse r s.page,
                    slackInFlight := s.slackInFlight.eraseIdx i }
  | .emailClick =>
    if s.page.sendEmailDisabled then none
    else
      let r := sendByEmail s.page
      some { s with page := r.1, emailInFlight := issue s.emailInFlight r.2 }
  | .emailResponse i r =>
    match s.emailInFlight.get? i with
    | none => none
    | some _ =>
      some { s with page := sendByEmailResponse r s.page,
                    emailInFlight := s.emailInFlight.eraseIdx i }
  | .newClick => some { s with page := createNewNote s.page }
  | .settingsSubmit form => some { s with page := saveSettings form s.page }
  | .tabClick tabId => some { s with page := switchTab tabId s.page }

/-- The state after a sequence of events, `none` if one of them cannot happen. -/
def run (dom : Browser) (s : Sys) : List Event → Option Sys
  | [] => some s
  | e :: es =>
    match step dom s e with
    | some t => run dom t es
    | none => none

/-- The state left by `createNewNote` on a page with nothing pending. -/
def newNote (p : Page) : Sys :=
  { page := createNewNote p, micRequests := 0, stopEvents := 0,
    transcribeInFlight := [], polishInFlight := [], slackInFlight := [],
    emailInFlight := [] }

/-- The page at load: empty elements, the globals as `main.js` declares them. -/
def blankPage : Page :=
  { rawTranscription := "", polishedNote := "", editorTitle := "",
    statusText := "", sendSlackDisabled := false, sendEmailDisabled := false,
    activeTab := "polishedNote", isRecording := false, audioChunks := [],
    mediaRecorder := none,
    integrationConfigs :=
      { slackWebhook := none, smtpEmail := none, recipientEmail := none,
        smtpServer := none, smtpPassword := none },
    alerts := [] }

/-- Both integration buttons are enabled. -/
def integrationEnabled (p : Page) : Bool :=
  !p.sendSlackDisabled && !p.sendEmailDisabled

/-- A sample rendering of markup as text: the characters outside tags. -/
def stripTagsAux : Bool → List Char → List Char
  | _, [] => []
  | inTag, c :: cs =>
    if c = '<' then stripTagsAux true cs
    else if c = '>' then (if inTag then stripTagsAux false cs else c :: stripTagsAux false cs)
    else if inTag then stripTagsAux true cs
    else c :: stripTagsAux false cs

/-- A sample rendering of markup as text: the characters outside tags. -/
def stripTags (s : String) : String :=
  String.mk (stripTagsAux false s.data)

/-- A sample of reading markup back: a stray `</div>`, which parses to nothing,
reads back as the empty string; other markup reads back as assigned. -/
def sampleInnerHTML (s : String) : String :=
  if s = "</div>" then "" else s

/-- A sample browser. -/
def sampleBrowser : Browser :=
  { innerHTML := sampleInnerHTML, innerText := stripTags }

/-- Controls with the local engine selected and a polish key entered. -/
def sampleControls : Controls :=
  { engineSource := some "local", modelSize := "base", transcriptionApiKey := "",
    polishProvider := "openai", polishApiKey := "key", companyContext := "",
    projectContext := "" }

/-! ## Predicates of the specification -/

/-- The note content, the button flags and the configuration agree on two pages. -/
def sameNote (p q : Page) : Prop :=
  q.rawTranscription = p.rawTranscription ∧ q.polishedNote = p.polishedNote ∧
  q.editorTitle = p.editorTitle ∧ q.sendSlackDisabled = p.sendSlackDisabled ∧
  q.sendEmailDisabled = p.sendEmailDisabled ∧
  q.integrationConfigs = p.integrationConfigs

/-- The events of the note lifecycle. -/
inductive Marker where
  /-- The handler `createNewNote` ran. -/
  | reset
  /-- A transcription request was issued. -/
  | transcribeIssued
  /-- A successful transcription response was applied. -/
  | transcribed
  /-- A polish request was issued. -/
  | polishIssued
  /-- A successful polish response was applied. -/
  | polished
deriving DecidableEq, Repr

/-- The marker of event `e` happening in state `s`, for the events after which a
handler sets the integration buttons. -/
def marker (s : Sys) (e : Event) : Option Marker :=
  match e with
  | .newClick => some .reset
  | .transcribeResponse _ (.response true _ (.ok _)) => some .transcribed
  | .polishClick ui =>
    if (handlePolishRequest ui s.page).2.isSome then some .polishIssued else none
  | .polishResponse _ (.response true _ (.ok _)) => some .polished
  | _ => none

/-- The marker of event `e` happening in state `s`, counting the transcription
requests that are issued as well. -/
def lifecycleMarker (s : Sys) (e : Event) : Option Marker :=
  match e with
  | .upload ui file =>
    if (uploadChange ui file s.page).2.isSome then some .transcribeIssued else none
  | .recorderStop ui =>
    if (onstop ui s.page).2.isSome then some .transcribeIssued else none
  | _ => marker s e

/-- The most recent marker, as `mark` gives them, along the events `es` run from
`s`; `m` if there is none. -/
def lastMarker (dom : Browser) (mark : Sys → Event → Option Marker)
    (m : Marker) (s : Sys) : List Event → Marker
  | [] => m
  | e :: es =>
    match step dom s e with
    | some t => lastMarker dom mark ((mark s e).getD m) t es
    | none => m

/-- Along `evs` run from `s0`, the polish request `payload` was issued by a click
on `polishButton` in a state whose trimmed raw text was non-empty. -/
def IssuedWithText (dom : Browser) (s0 : Sys) (evs : List Event)
    (payload : PolishPayload) : Prop :=
  ∃ (pre : List Event) (ui : Controls) (post : List Event) (sIss : Sys),
    evs = pre ++ Event.polishClick ui :: post ∧
    run dom s0 pre = some sIss ∧
    (handlePolishRequest ui sIss.page).2 = some payload ∧
    jsTrim sIss.page.rawTranscription ≠ ""

/-- Along `evs` run from `s0`, the value `v` of the polished content was written
by a successful polish response, to a request issued with non-empty trimmed raw
text, and the polished content has been `v` in every state since. -/
def WrittenByPolish (dom : Browser) (s0 : Sys) (evs : List Event)
    (v : String) : Prop :=
  ∃ (pre : List Event) (i : Nat) (statusText : String) (data : PolishData)
    (post : List Event) (sMid : Sys) (payload : PolishPayload),
    evs = pre ++ Event.polishResponse i (.response true statusText (.ok data)) :: post ∧
    run dom s0 pre = some sMid ∧
    sMid.polishInFlight.get? i = some payload ∧
    IssuedWithText dom s0 pre payload ∧
    v = (handlePolishResponse dom.innerHTML (.response true statusText (.ok data)) sMid.page).polishedNote ∧
    ∀ (post1 : List Event) (t : Sys), post1 <+: post →
      run dom s0
        (pre ++ Event.polishResponse i (.response true statusText (.ok data)) :: post1)
        = some t →
      t.page.polishedNote = v

/-- A reachable state with something pending of every kind: a stopped recorder,
a `/transcribe` request and a `/polish` request. -/
def busyState : Sys :=
  (run sampleBrowser (newNote blankPage)
    [.recordClick, .micGranted, .recordClick, .dataAvailable ⟨3⟩,
     .upload sampleControls (some (⟨1⟩, "a.wav")),
     .transcribeResponse 0 (.response true "OK" (.ok ⟨some "hello"⟩)),
     .upload sampleControls (some (⟨1⟩, "a.wav")),
     .polishClick sampleControls]).getD (newNote blankPage)

/-- The two button flags agree, and the buttons are enabled exactly when the
last marker is a successful polish. -/
def FlagsFollow (s : Sys) (m : Marker) : Prop :=
  s.page.sendSlackDisabled = s.page.sendEmailDisabled ∧
  (s.page.sendSlackDisabled = false ↔ m = Marker.polished)

/-! ## Single handlers -/

/-- C3: whatever the page was, after `handleTranscription` applies a successful
response the raw text is the response's `transcription` field (the empty string
when the field is absent or empty), the polished content is empty, both
integration buttons are disabled and the raw-transcription tab is active; and
on the scenario record, stop, response `{transcription: "hello"}` the raw text
is `"hello"` with the buttons disabled and the raw tab shown. -/
theorem transcription_success_sets_raw_clears_polished
    (p : Page) (statusText : String) (data : TranscribeData) :
    ((handleTranscriptionResponse (.response true statusText (.ok data)) p).rawTranscription
        = data.transcription.getD "" ∧
      (handleTranscriptionResponse (.response true statusText (.ok data)) p).polishedNote = "" ∧
      (handleTranscriptionResponse (.response true statusText (.ok data)) p).sendSlackDisabled
        = true ∧
      (handleTranscriptionResponse (.response true statusText (.ok data)) p).sendEmailDisabled
        = true ∧
      (handleTranscriptionResponse (.response true statusText (.ok data)) p).activeTab
        = "rawTranscription") ∧
    (run sampleBrowser (newNote blankPage)
        [.recordClick, .micGranted, .recordClick, .dataAvailable ⟨4⟩,
         .recorderStop sampleControls,
         .transcribeResponse 0 (.response true "OK" (.ok ⟨some "hello"⟩))]).map
      (fun s => (s.page.rawTranscription, s.page.polishedNote, integrationEnabled s.page,
                 s.page.activeTab, s.transcribeInFlight))
      = some ("hello", "", false, "rawTranscription", []) := by
  refine ⟨⟨?_, rfl, rfl, rfl, rfl⟩, by decide⟩
  cases data with
  | mk t =>
    cases t with
    | none => rfl
    | some t =>
      by_cases h : t = ""
      · simp [handleTranscriptionResponse, switchTab, disableIntegrationButtons, jsOr, h]
      · simp [handleTranscriptionResponse, switchTab, disableIntegrationButtons, jsOr, h]

/-- C4: `handleTranscription` validates before it dispatches.  When the audio
blob is absent or empty, or when it is non-empty, the engine is `openai` or
`deepgram` and the transcription key is empty, no request is issued (from a
call, from the upload listener, from the recorder's `stop` handler), and the page
is the old one with only the status message changed (to "No audio to
transcribe.", resp. to "Ready to record" after an alert naming the provider). -/
theorem transcription_validation_issues_no_request
    (ui : Controls) (audioBlob : Option Blob) (fileName : String) (p : Page)
    (h : (audioBlob = none ∨ audioBlob = some ⟨0⟩) ∨
         ((∃ b, audioBlob = some b ∧ b.size ≠ 0) ∧
          (ui.engineSource = some "openai" ∨ ui.engineSource = some "deepgram") ∧
          ui.transcriptionApiKey = "")) :
    (handleTranscription ui audioBlob fileName p).2 = none ∧
    (uploadChange ui (audioBlob.map (fun b => (b, fileName))) p).2 = none ∧
    (onstop ui { p with audioChunks := audioBlob.toList }).2 = none ∧
    (handleTranscription ui audioBlob fileName p).1 =
      if audioBlob = none ∨ audioBlob = some ⟨0⟩ then
        { p with statusText := "No audio to transcribe." }
      else if ui.engineSource = some "openai" then
        { p with statusText := "Ready to record",
                 alerts := p.alerts ++ ["Please enter your Openai API key."] }
      else
        { p with statusText := "Ready to record",
                 alerts := p.alerts ++ ["Please enter your Deepgram API key."] } := by
  have hO : capitalize "openai" = "Openai" := by decide
  have hD : capitalize "deepgram" = "Deepgram" := by decide
  have hOs : "Please enter your " ++ "Openai" ++ " API key." =
      "Please enter your Openai API key." := by decide
  have hDs : "Please enter your " ++ "Deepgram" ++ " API key." =
      "Please enter your Deepgram API key." := by decide
  rcases h with (h | h) | ⟨⟨b, hb, hsz⟩, hsrc, hkey⟩
  · subst h
    simp [handleTranscription, uploadChange, onstop]
  · subst h
    simp [handleTranscription, uploadChange, onstop]
  · subst hb
    have hb0 : (some b = some (⟨0⟩ : Blob)) = False := by
      apply eq_false
      intro hEq
      exact hsz (by rw [Option.some.inj hEq])
    rcases hsrc with hsrc | hsrc
    · simp [handleTranscription, uploadChange, onstop, hsrc, hkey, hsz, hb0, hO, hOs, alert]
    · simp [handleTranscription, uploadChange, onstop, hsrc, hkey, hsz, hb0, hD, hDs, alert]

/-- C4, at concrete inputs: an empty upload, and a recording sent to OpenAI
without a key. -/
theorem transcription_validation_issues_no_request_witness :
    ((handleTranscription sampleControls (some ⟨0⟩) "a.wav" blankPage).2 = none ∧
     (handleTranscription sampleControls (some ⟨0⟩) "a.wav" blankPage).1.statusText
        = "No audio to transcribe.") ∧
    ((handleTranscription { sampleControls with engineSource := some "openai" }
        (some ⟨7⟩) "recording.wav" blankPage).2 = none ∧
     (handleTranscription { sampleControls with engineSource := some "openai" }
        (some ⟨7⟩) "recording.wav" blankPage).1.alerts
        = ["Please enter your Openai API key."]) := by
  have h1 := transcription_validation_issues_no_request sampleControls (some ⟨0⟩) "a.wav"
    blankPage (Or.inl (Or.inr rfl))
  have h2 := transcription_validation_issues_no_request
    { sampleControls with engineSource := some "openai" } (some ⟨7⟩) "recording.wav"
    blankPage (Or.inr ⟨⟨⟨7⟩, rfl, by decide⟩, Or.inl rfl, rfl⟩)
  refine ⟨⟨h1.1, ?_⟩, ⟨h2.1, ?_⟩⟩
  · rw [h1.2.2.2]; decide
  · rw [h2.2.2.2]; decide

/-- C5, as stated, fails: with raw text `" "` (non-empty, blank) and no polish key
the handler reports "There is no text to polish.", not the missing key. -/
theorem polish_blank_text_reports_no_input :
    ({ blankPage with rawTranscription := " " } : Page).rawTranscription ≠ "" ∧
    ({ sampleControls with polishApiKey := "" } : Controls).polishApiKey = "" ∧
    (handlePolishRequest { sampleControls with polishApiKey := "" }
        { blankPage with rawTranscription := " " }).1.alerts
      = ["There is no text to polish."] ∧
    ¬ (∀ (ui : Controls) (p : Page), p.rawTranscription ≠ "" → ui.polishApiKey = "" →
        handlePolishRequest ui p =
          (alert "Please enter the API key for the selected provider." p, none)) := by
  refine ⟨by decide, rfl, by decide, ?_⟩
  intro hall
  have h := hall { sampleControls with polishApiKey := "" }
    { blankPage with rawTranscription := " " } (by decide) rfl
  have h2 := congrArg (fun r => r.1.alerts) h
  revert h2
  decide

/-- C5, amended: when the raw text is non-empty after trimming and the polish key
is empty, `handlePolishRequest` alerts "Please enter the API key for the selected
provider.", issues no request and changes nothing else. -/
theorem polish_missing_key_issues_no_request (ui : Controls) (p : Page)
    (hraw : jsTrim p.rawTranscription ≠ "") (hkey : ui.polishApiKey = "") :
    handlePolishRequest ui p =
      (alert "Please enter the API key for the selected provider." p, none) := by
  simp [handlePolishRequest, hraw, hkey]

/-- C5, amended, at raw text `"hello"`. -/
theorem polish_missing_key_issues_no_request_witness :
    jsTrim ({ blankPage with rawTranscription := "hello" } : Page).rawTranscription ≠ "" ∧
    handlePolishRequest { sampleControls with polishApiKey := "" }
        { blankPage with rawTranscription := "hello" } =
      (alert "Please enter the API key for the selected provider."
        { blankPage with rawTranscription := "hello" }, none) :=
  ⟨by decide,
   polish_missing_key_issues_no_request { sampleControls with polishApiKey := "" }
     { blankPage with rawTranscription := "hello" } (by decide) rfl⟩

/-- C6: from every page, `createNewNote` leaves empty raw text, empty polished
content, the title "Untitled Note" and both integration buttons disabled; it
keeps `integrationConfigs`; it is idempotent; and as a step it leaves what is in
flight untouched. -/
theorem createNewNote_resets (p : Page) :
    (createNewNote p).rawTranscription = "" ∧
    (createNewNote p).polishedNote = "" ∧
    (createNewNote p).editorTitle = "Untitled Note" ∧
    (createNewNote p).sendSlackDisabled = true ∧
    (createNewNote p).sendEmailDisabled = true ∧
    (createNewNote p).integrationConfigs = p.integrationConfigs ∧
    createNewNote (createNewNote p) = createNewNote p ∧
    (∀ (dom : Browser) (s : Sys),
      step dom s .newClick = some { s with page := createNewNote s.page }) :=
  ⟨rfl, rfl, rfl, rfl, rfl, rfl, rfl, fun _ _ => rfl⟩

/-- C7, as stated, fails.  With two polish requests in flight, the first response
succeeding and the second failing, the buttons are enabled after the failed
response; and the markup `</div>`, which parses to nothing, leaves the polished
content empty, not equal to the response's field. -/
theorem polish_failure_leaves_buttons_enabled :
    (run sampleBrowser (newNote blankPage)
        [.upload sampleControls (some (⟨1⟩, "a.wav")),
         .transcribeResponse 0 (.response true "OK" (.ok ⟨some "hello"⟩)),
         .polishClick sampleControls, .polishClick sampleControls,
         .polishResponse 0 (.response true "OK" (.ok ⟨some "<p>Hello</p>"⟩)),
         .polishResponse 0 (.response false "Bad Gateway" (.error "no body"))]).map
      (fun s => (integrationEnabled s.page, s.page.polishedNote, s.page.statusText,
                 s.polishInFlight.length))
      = some (true, "<p>Hello</p>", "Error polishing text.", 0) ∧
    (handlePolishRequest sampleControls { blankPage with rawTranscription := "hello" }).2
      ≠ none ∧
    (handlePolishResponse sampleBrowser.innerHTML (.response true "OK" (.ok ⟨some "</div>"⟩))
        (handlePolishRequest sampleControls
          { blankPage with rawTranscription := "hello" }).1).polishedNote = "" := by
  decide

/-- C7, amended: when `handlePolishRequest` passes its validation (it issues a
request) it leaves the raw text and the polished content as they were and both
buttons disabled.  A successful response, on whatever page it arrives, sets the
polished content to what the browser reads back after `polished_text_html` (or
"An error occurred while polishing." when that field is absent or empty) was
assigned to `innerHTML`, keeps the raw text, enables both buttons and shows the
polished tab.  A failed response (the fetch rejects, the status is not ok, the
body is not JSON), on whatever page it arrives, keeps the polished content, the
raw text and both button flags; applied right after the request it therefore
leaves the content as before the request and the buttons disabled. -/
theorem polish_response_after_request (innerHTML : String → String) (ui : Controls)
    (p : Page) (payload : PolishPayload)
    (h : (handlePolishRequest ui p).2 = some payload) :
    ((handlePolishRequest ui p).1.rawTranscription = p.rawTranscription ∧
      (handlePolishRequest ui p).1.polishedNote = p.polishedNote ∧
      (handlePolishRequest ui p).1.sendSlackDisabled = true ∧
      (handlePolishRequest ui p).1.sendEmailDisabled = true) ∧
    (∀ (q : Page) (statusText : String) (data : PolishData),
      (handlePolishResponse innerHTML (.response true statusText (.ok data)) q).polishedNote
        = innerHTML (match data.polished_text_html with
           | some html => if html = "" then "An error occurred while polishing." else html
           | none => "An error occurred while polishing.") ∧
      (handlePolishResponse innerHTML (.response true statusText (.ok data)) q).rawTranscription
        = q.rawTranscription ∧
      (handlePolishResponse innerHTML (.response true statusText (.ok data)) q).sendSlackDisabled
        = false ∧
      (handlePolishResponse innerHTML (.response true statusText (.ok data)) q).sendEmailDisabled
        = false ∧
      (handlePolishResponse innerHTML (.response true statusText (.ok data)) q).activeTab
        = "polishedNote") ∧
    (∀ (q : Page) (r : FetchResult PolishData),
      ((∃ message, r = .rejected message) ∨ (∃ st json, r = .response false st json) ∨
        (∃ st message, r = .response true st (.error message))) →
      (handlePolishResponse innerHTML r q).polishedNote = q.polishedNote ∧
      (handlePolishResponse innerHTML r q).rawTranscription = q.rawTranscription ∧
      (handlePolishResponse innerHTML r q).sendSlackDisabled = q.sendSlackDisabled ∧
      (handlePolishResponse innerHTML r q).sendEmailDisabled = q.sendEmailDisabled) ∧
    (∀ r : FetchResult PolishData,
      ((∃ message, r = .rejected message) ∨ (∃ st json, r = .response false st json) ∨
        (∃ st message, r = .response true st (.error message))) →
      (handlePolishResponse innerHTML r (handlePolishRequest ui p).1).polishedNote
        = p.polishedNote ∧
      (handlePolishResponse innerHTML r (handlePolishRequest ui p).1).rawTranscription
        = p.rawTranscription ∧
      (handlePolishResponse innerHTML r (handlePolishRequest ui p).1).sendSlackDisabled
        = true ∧
      (handlePolishResponse innerHTML r (handlePolishRequest ui p).1).sendEmailDisabled
        = true) := by
  have hq : (handlePolishRequest ui p).1 =
      disableIntegrationButtons
        { p with statusText := "Polishing with " ++ ui.polishProvider ++ "..." } := by
    unfold handlePolishRequest at h ⊢
    by_cases h1 : jsTrim p.rawTranscription = ""
    · simp [h1] at h
    · by_cases h2 : ui.polishApiKey = ""
      · simp [h1, h2] at h
      · simp [h1, h2]
  rw [hq]
  refine ⟨⟨rfl, rfl, rfl, rfl⟩, fun q st data => ⟨?_, rfl, rfl, rfl, rfl⟩, ?_, ?_⟩
  · cases data with
    | mk t =>
      cases t with
      | none => rfl
      | some t =>
        by_cases ht : t = ""
        · simp [handlePolishResponse, switchTab, enableIntegrationButtons, jsOr, ht]
        · simp [handlePolishResponse, switchTab, enableIntegrationButtons, jsOr, ht]
  · rintro q r (⟨message, hr⟩ | ⟨st, json, hr⟩ | ⟨st, message, hr⟩) <;> subst hr <;>
      exact ⟨rfl, rfl, rfl, rfl⟩
  · rintro r (⟨message, hr⟩ | ⟨st, json, hr⟩ | ⟨st, message, hr⟩) <;> subst hr <;>
      exact ⟨rfl, rfl, rfl, rfl⟩

/-- C7, amended, on the scenario of the specification: raw text "hello", response
`{polished_text_html: "<p>Hello</p>"}`; and a failed response right after the
request. -/
theorem polish_response_after_request_witness :
    (handlePolishRequest sampleControls { blankPage with rawTranscription := "hello" }).2
      = some { raw_text := "hello", provider := "openai", api_key := "key",
               company_context := "", project_context := "" } ∧
    (handlePolishResponse sampleBrowser.innerHTML
        (.response true "OK" (.ok ⟨some "<p>Hello</p>"⟩))
        (handlePolishRequest sampleControls
          { blankPage with rawTranscription := "hello" }).1).polishedNote = "<p>Hello</p>" ∧
    (handlePolishResponse sampleBrowser.innerHTML
        (.response true "OK" (.ok ⟨some "<p>Hello</p>"⟩))
        (handlePolishRequest sampleControls
          { blankPage with rawTranscription := "hello" }).1).sendSlackDisabled = false ∧
    (handlePolishResponse sampleBrowser.innerHTML
        (.response true "OK" (.ok ⟨some "<p>Hello</p>"⟩))
        (handlePolishRequest sampleControls
          { blankPage with rawTranscription := "hello" }).1).sendEmailDisabled = false ∧
    (handlePolishResponse sampleBrowser.innerHTML
        (.response false "Bad Gateway" (.error "no body"))
        (handlePolishRequest sampleControls
          { blankPage with rawTranscription := "hello" }).1).sendSlackDisabled = true := by
  have h := polish_response_after_request sampleBrowser.innerHTML sampleControls
    { blankPage with rawTranscription := "hello" }
    { raw_text := "hello", provider := "openai", api_key := "key",
      company_context := "", project_context := "" } (by decide)
  have hs := h.2.1 (handlePolishRequest sampleControls
    { blankPage with rawTranscription := "hello" }).1 "OK" ⟨some "<p>Hello</p>"⟩
  have hf := h.2.2.2 (.response false "Bad Gateway" (.error "no body"))
    (Or.inr (Or.inl ⟨_, _, rfl⟩))
  exact ⟨by decide, hs.1.trans (by decide), hs.2.2.1, hs.2.2.2.1, hf.2.2.1⟩

/-- C9, as stated, fails: with polished content `<p></p>` (non-empty markup whose
text is empty) and no webhook, `sendToSlack` reports "No polished text to send.",
not the missing webhook. -/
theorem slack_empty_text_reports_no_content :
    ({ blankPage with polishedNote := "<p></p>" } : Page).polishedNote ≠ "" ∧
    ({ blankPage with polishedNote := "<p></p>" } : Page).integrationConfigs.slackWebhook
      = none ∧
    stripTags "<p></p>" = "" ∧
    sendToSlack stripTags { blankPage with polishedNote := "<p></p>" } =
      (alert "No polished text to send." { blankPage with polishedNote := "<p></p>" },
       none) ∧
    sendToSlack stripTags { blankPage with polishedNote := "<p></p>" } ≠
      (alert "Slack Webhook URL not configured."
        { blankPage with polishedNote := "<p></p>" }, none) := by
  refine ⟨by decide, rfl, by decide, by decide, by decide⟩

/-- C9, amended: where the rendering of empty markup is empty, `sendToSlack` on
empty polished content alerts "No polished text to send." and issues no request,
whatever the configuration; when the text of the polished content is non-empty
and the webhook is absent or empty it alerts "Slack Webhook URL not configured."
and issues no request; and on every path of `sendToSlack` and `sendByEmail`,
before the fetch and after it, the raw text, the polished content, the title,
the button flags and the configuration stay as they were. -/
theorem send_validation_and_frame (innerText : String → String)
    (hr : innerText "" = "") (p : Page) :
    (p.polishedNote = "" →
      sendToSlack innerText p = (alert "No polished text to send." p, none)) ∧
    (innerText p.polishedNote ≠ "" → truthy p.integrationConfigs.slackWebhook = false →
      sendToSlack innerText p = (alert "Slack Webhook URL not configured." p, none)) ∧
    sameNote p (sendToSlack innerText p).1 ∧
    (∀ r, sameNote p (sendToSlackResponse r p)) ∧
    sameNote p (sendByEmail p).1 ∧
    (∀ r, sameNote p (sendByEmailResponse r p)) := by
  refine ⟨?_, ?_, ?_, ?_, ?_, ?_⟩
  · intro h
    simp [sendToSlack, h, hr]
  · intro h hw
    unfold sendToSlack
    cases hc : p.integrationConfigs.slackWebhook with
    | none => simp [h]
    | some url =>
      have hu : url = "" := by simpa [truthy, hc] using hw
      simp [h, hu]
  · unfold sendToSlack
    by_cases h : innerText p.polishedNote = ""
    · simp [h, sameNote, alert]
    · cases hc : p.integrationConfigs.slackWebhook with
      | none => simp [h, sameNote, alert]
      | some url =>
        by_cases hu : url = ""
        · simp [h, hu, sameNote, alert]
        · simp [h, hu, sameNote]
  · intro r
    rcases r with message | ⟨ok, st, json⟩
    · simp [sendToSlackResponse, sameNote, alert]
    · cases ok <;> simp [sendToSlackResponse, sameNote, alert]
  · unfold sendByEmail
    by_cases h : p.polishedNote = ""
    · simp [h, sameNote, alert]
    · by_cases hc : (!truthy p.integrationConfigs.smtpEmail
          || !truthy p.integrationConfigs.recipientEmail) = true
      · simp only [h, hc, if_true, if_false]
        simp [sameNote, alert]
      · simp only [h, hc, if_false]
        simp [sameNote]
  · intro r
    rcases r with message | ⟨ok, st, json⟩
    · simp [sendByEmailResponse, sameNote, alert]
    · cases ok <;> simp [sendByEmailResponse, sameNote, alert]

/-- C9, amended, with the sample rendering: empty content, and content `<p>Hello</p>`
without a webhook. -/
theorem send_validation_and_frame_witness :
    stripTags "" = "" ∧
    sendToSlack stripTags blankPage = (alert "No polished text to send." blankPage, none) ∧
    sendToSlack stripTags { blankPage with polishedNote := "<p>Hello</p>" } =
      (alert "Slack Webhook URL not configured."
        { blankPage with polishedNote := "<p>Hello</p>" }, none) :=
  ⟨by decide,
   (send_validation_and_frame stripTags (by decide) blankPage).1 rfl,
   (send_validation_and_frame stripTags (by decide)
      { blankPage with polishedNote := "<p>Hello</p>" }).2.1 (by decide) (by decide)⟩

/-! ## Runs of the event loop -/

theorem run_append (dom : Browser) (s : Sys) (es fs : List Event) :
    run dom s (es ++ fs) = (run dom s es).bind (fun t => run dom t fs) := by
  induction es generalizing s with
  | nil => rfl
  | cons e es ih =>
    simp only [List.cons_append, run]
    cases step dom s e with
    | none => rfl
    | some t => exact ih t

theorem run_concat (dom : Browser) (s : Sys) (es : List Event) (e : Event) :
    run dom s (es ++ [e]) = (run dom s es).bind (fun t => step dom t e) := by
  rw [run_append]
  congr 1
  funext t
  simp only [run]
  cases step dom t e <;> rfl

/-- C2, as stated, fails: an upload issues a request, `createNewNote` runs (the raw
text is empty and the request still in flight), and the response
`{transcription: "hello"}` then puts "hello" back into the raw text. -/
theorem stale_transcription_repopulates_raw_text :
    (run sampleBrowser (newNote blankPage)
        [.upload sampleControls (some (⟨1⟩, "a.wav")), .newClick]).map
      (fun s => (s.page.rawTranscription, s.transcribeInFlight.length)) = some ("", 1) ∧
    (run sampleBrowser (newNote blankPage)
        [.upload sampleControls (some (⟨1⟩, "a.wav")), .newClick,
         .transcribeResponse 0 (.response true "OK" (.ok ⟨some "hello"⟩))]).map
      (fun s => s.page.rawTranscription) = some "hello" := by
  decide

/-- C2, amended: for every transcription request in flight, if `createNewNote` runs
and the successful response to that request is processed next, the response is
applied: the raw text becomes the response's `transcription` field (empty only
when the field is absent or empty), the polished content is empty, the title is
"Untitled Note", and the request is no longer in flight. -/
theorem stale_transcription_response_is_applied (dom : Browser) (s : Sys)
    (i : Nat) (form : TranscribeForm) (statusText : String) (data : TranscribeData)
    (h : s.transcribeInFlight.get? i = some form) :
    ∃ t u, step dom s .newClick = some t ∧
      step dom t (.transcribeResponse i (.response true statusText (.ok data))) = some u ∧
      t.page.rawTranscription = "" ∧
      u.page.rawTranscription = data.transcription.getD "" ∧
      u.page.polishedNote = "" ∧
      u.page.editorTitle = "Untitled Note" ∧
      u.transcribeInFlight = s.transcribeInFlight.eraseIdx i := by
  refine ⟨{ s with page := createNewNote s.page },
    { s with page := handleTranscriptionResponse (.response true statusText (.ok data))
                       (createNewNote s.page),
             transcribeInFlight := s.transcribeInFlight.eraseIdx i }, rfl, ?_, rfl, ?_, rfl, rfl, rfl⟩
  · simp only [step, h]
  · cases data with
    | mk tr =>
      cases tr with
      | none => rfl
      | some tr =>
        by_cases ht : tr = ""
        · simp [handleTranscriptionResponse, switchTab, disableIntegrationButtons, jsOr, ht]
        · simp [handleTranscriptionResponse, switchTab, disableIntegrationButtons, jsOr, ht]

/-- C2, amended, on a state with one upload in flight. -/
theorem stale_transcription_response_is_applied_witness :
    ∃ t u,
      step sampleBrowser
        { newNote blankPage with
            transcribeInFlight := [{ file := ⟨1⟩, fileName := "a.wav", source := "local",
                                     model_size := some "base", api_key := none }] }
        .newClick = some t ∧
      step sampleBrowser t (.transcribeResponse 0 (.response true "OK" (.ok ⟨some "hello"⟩)))
        = some u ∧
      t.page.rawTranscription = "" ∧
      u.page.rawTranscription = "hello" ∧
      u.page.polishedNote = "" ∧
      u.page.editorTitle = "Untitled Note" ∧
      u.transcribeInFlight = [] :=
  stale_transcription_response_is_applied sampleBrowser
    { newNote blankPage with
        transcribeInFlight := [{ file := ⟨1⟩, fileName := "a.wav", source := "local",
                                 model_size := some "base", api_key := none }] }
    0 { file := ⟨1⟩, fileName := "a.wav", source := "local",
        model_size := some "base", api_key := none } "OK" ⟨some "hello"⟩ rfl

theorem run_uploads (dom : Browser) (n : Nat) (s : Sys) :
    ∃ t, run dom s
        (List.replicate n (Event.upload sampleControls (some (⟨1⟩, "a.wav")))) = some t ∧
      t.transcribeInFlight.length = s.transcribeInFlight.length + n ∧
      t.page.rawTranscription = s.page.rawTranscription ∧
      t.polishInFlight = s.polishInFlight := by
  induction n generalizing s with
  | zero => exact ⟨s, rfl, rfl, rfl, rfl⟩
  | succ n ih =>
    obtain ⟨t, ht, hlen, hraw, hpol⟩ := ih
      { s with page := { s.page with statusText := "Sending for transcription..." },
               transcribeInFlight := s.transcribeInFlight ++
                 [{ file := ⟨1⟩, fileName := "a.wav", source := "local",
                    model_size := some "base", api_key := none }] }
    refine ⟨t, ?_, ?_, hraw, hpol⟩
    · rw [List.replicate_succ]
      simpa [run, step, uploadChange, handleTranscription, sampleControls, issue] using ht
    · rw [hlen]
      simp only [List.length_append, List.length_singleton]
      omega

theorem run_polishClicks (dom : Browser) (n : Nat) (s : Sys)
    (hraw : jsTrim s.page.rawTranscription ≠ "") :
    ∃ t, run dom s (List.replicate n (Event.polishClick sampleControls)) = some t ∧
      t.polishInFlight.length = s.polishInFlight.length + n ∧
      t.transcribeInFlight = s.transcribeInFlight := by
  induction n generalizing s with
  | zero => exact ⟨s, rfl, rfl, rfl⟩
  | succ n ih =>
    obtain ⟨t, ht, hlen, htr⟩ := ih
      { s with page := (handlePolishRequest sampleControls s.page).1,
               polishInFlight := issue s.polishInFlight
                 (handlePolishRequest sampleControls s.page).2 }
      (by simp [handlePolishRequest, hraw, sampleControls, disableIntegrationButtons])
    refine ⟨t, ?_, ?_, htr⟩
    · rw [List.replicate_succ]
      simpa [run, step] using ht
    · rw [hlen]
      simp [handlePolishRequest, hraw, sampleControls, issue]
      omega

/-- C10, as stated, fails: two uploads in a row leave two `/transcribe` requests in
flight, and two clicks on `polishButton` leave two `/polish` requests in
flight. -/
theorem two_requests_in_flight :
    (run sampleBrowser (newNote blankPage)
        [.upload sampleControls (some (⟨1⟩, "a.wav")),
         .upload sampleControls (some (⟨1⟩, "b.wav"))]).map
      (fun s => s.transcribeInFlight.length) = some 2 ∧
    (run sampleBrowser (newNote blankPage)
        [.upload sampleControls (some (⟨1⟩, "a.wav")),
         .transcribeResponse 0 (.response true "OK" (.ok ⟨some "hello"⟩)),
         .polishClick sampleControls, .polishClick sampleControls]).map
      (fun s => s.polishInFlight.length) = some 2 := by
  decide

/-- C10, amended: the handlers never disable the controls that trigger a request.
In every state, whatever is in flight: an upload whose validation passes issues
one more `/transcribe` request; so does the `stop` of a recorder whose validation
passes; a click on `polishButton` whose validation passes issues one more
`/polish` request; and no step issues more than one request of a kind.  From the
state left by `createNewNote`, for every `n`, a state with `n` transcription
requests and `n` polish requests in flight is reachable. -/
theorem requests_issued_whatever_is_in_flight (dom : Browser) (s : Sys) :
    (∀ (ui : Controls) (blob : Blob) (fileName : String) (form : TranscribeForm),
      (handleTranscription ui (some blob) fileName s.page).2 = some form →
      ∃ t, step dom s (.upload ui (some (blob, fileName))) = some t ∧
        t.transcribeInFlight = s.transcribeInFlight ++ [form]) ∧
    (∀ (ui : Controls) (recorded : TranscribeForm),
      s.stopEvents ≠ 0 → (onstop ui s.page).2 = some recorded →
      ∃ t, step dom s (.recorderStop ui) = some t ∧
        t.transcribeInFlight = s.transcribeInFlight ++ [recorded]) ∧
    (∀ (ui : Controls) (payload : PolishPayload),
      (handlePolishRequest ui s.page).2 = some payload →
      ∃ t, step dom s (.polishClick ui) = some t ∧
        t.polishInFlight = s.polishInFlight ++ [payload]) ∧
    (∀ e t, step dom s e = some t →
      t.transcribeInFlight.length ≤ s.transcribeInFlight.length + 1 ∧
      t.polishInFlight.length ≤ s.polishInFlight.length + 1) ∧
    (∀ (p : Page) (n : Nat), ∃ evs t, run dom (newNote p) evs = some t ∧
      t.transcribeInFlight.length = n ∧ t.polishInFlight.length = n) := by
  refine ⟨?_, ?_, ?_, ?_, ?_⟩
  · intro ui blob fileName form hUpload
    exact ⟨_, rfl, by simp [uploadChange, hUpload, issue]⟩
  · intro ui recorded hStop hRec
    refine ⟨{ s with page := (onstop ui s.page).1, stopEvents := s.stopEvents - 1,
                     transcribeInFlight := issue s.transcribeInFlight (onstop ui s.page).2 },
      ?_, by simp [hRec, issue]⟩
    simp [step, hStop]
  · intro ui payload hPolish
    exact ⟨_, rfl, by simp [hPolish, issue]⟩
  · intro e t ht
    have hissue : ∀ {α : Type} (l : List α) (o : Option α),
        (issue l o).length ≤ l.length + 1 := by
      intro α l o
      cases o <;> simp [issue]
    have herase : ∀ {α : Type} (l : List α) (i : Nat),
        (l.eraseIdx i).length ≤ l.length + 1 := by
      intro α l i
      exact le_trans (List.length_eraseIdx_le l i) (Nat.le_succ _)
    cases e with
    | recordClick =>
      simp only [step, toggleRecording, Option.some.injEq] at ht
      subst ht
      split_ifs
      · split <;> simp
      · simp
    | micGranted =>
      simp only [step] at ht
      split_ifs at ht
      simp only [Option.some.injEq] at ht
      subst ht; simp
    | micDenied =>
      simp only [step] at ht
      split_ifs at ht
      simp only [Option.some.injEq] at ht
      subst ht; simp
    | dataAvailable data =>
      simp only [step] at ht
      split_ifs at ht
      simp only [Option.some.injEq] at ht
      subst ht; simp
    | recorderStop ui =>
      simp only [step] at ht
      split_ifs at ht
      simp only [Option.some.injEq] at ht
      subst ht
      exact ⟨hissue _ _, Nat.le_succ _⟩
    | upload ui file =>
      simp only [step, Option.some.injEq] at ht
      subst ht
      exact ⟨hissue _ _, Nat.le_succ _⟩
    | transcribeResponse i r =>
      simp only [step] at ht
      split at ht
      · cases ht
      · simp only [Option.some.injEq] at ht
        subst ht
        exact ⟨herase _ _, Nat.le_succ _⟩
    | polishClick ui =>
      simp only [step, Option.some.injEq] at ht
      subst ht
      exact ⟨Nat.le_succ _, hissue _ _⟩
    | polishResponse i r =>
      simp only [step] at ht
      split at ht
      · cases ht
      · simp only [Option.some.injEq] at ht
        subst ht
        exact ⟨Nat.le_succ _, herase _ _⟩
    | slackClick =>
      simp only [step] at ht
      split_ifs at ht
      simp only [Option.some.injEq] at ht
      subst ht; simp
    | slackResponse i r =>
      simp only [step] at ht
      split at ht
      · cases ht
      · simp only [Option.some.injEq] at ht
        subst ht; simp
    | emailClick =>
      simp only [step] at ht
      split_ifs at ht
      simp only [Option.some.injEq] at ht
      subst ht; simp
    | emailResponse i r =>
      simp only [step] at ht
      split at ht
      · cases ht
      · simp only [Option.some.injEq] at ht
        subst ht; simp
    | newClick =>
      simp only [step, Option.some.injEq] at ht
      subst ht; simp
    | settingsSubmit cfg =>
      simp only [step, Option.some.injEq] at ht
      subst ht; simp
    | tabClick tabId =>
      simp only [step, Option.some.injEq] at ht
      subst ht; simp
  · intro p n
    have h0 : run dom (newNote p)
        [.upload sampleControls (some (⟨1⟩, "a.wav")),
         .transcribeResponse 0 (.response true "OK" (.ok ⟨some "hello"⟩))]
        = some { newNote p with
                  page := handleTranscriptionResponse (.response true "OK" (.ok ⟨some "hello"⟩))
                    { createNewNote p with statusText := "Sending for transcription..." } } := by
      simp [run, step, uploadChange, handleTranscription, sampleControls, issue, newNote]
    obtain ⟨t1, ht1, hlen1, hraw1, hpol1⟩ := run_uploads dom n
      { newNote p with
          page := handleTranscriptionResponse (.response true "OK" (.ok ⟨some "hello"⟩))
            { createNewNote p with statusText := "Sending for transcription..." } }
    have hhello : t1.page.rawTranscription = "hello" := hraw1.trans rfl
    have hraw : jsTrim t1.page.rawTranscription ≠ "" := by
      rw [hhello]
      decide
    obtain ⟨t2, ht2, hlen2, htr2⟩ := run_polishClicks dom n t1 hraw
    refine ⟨[.upload sampleControls (some (⟨1⟩, "a.wav")),
         .transcribeResponse 0 (.response true "OK" (.ok ⟨some "hello"⟩))] ++
        (List.replicate n (Event.upload sampleControls (some (⟨1⟩, "a.wav"))) ++
         List.replicate n (Event.polishClick sampleControls)), t2, ?_, ?_, ?_⟩
    · rw [run_append, h0, Option.some_bind, run_append, ht1, Option.some_bind, ht2]
    · rw [htr2, hlen1]
      simp [newNote]
    · rw [hlen2, hpol1]
      simp [newNote]

/-- C10, amended, on a state that already has one request of each kind in flight,
and, for the upload, on the state left by `createNewNote`. -/
theorem requests_issued_whatever_is_in_flight_witness :
    busyState.transcribeInFlight.length = 1 ∧ busyState.polishInFlight.length = 1 ∧
    (∃ t, step sampleBrowser busyState (.upload sampleControls (some (⟨1⟩, "b.wav"))) = some t ∧
      t.transcribeInFlight = busyState.transcribeInFlight ++
        [{ file := ⟨1⟩, fileName := "b.wav", source := "local", model_size := some "base",
           api_key := none }]) ∧
    (∃ t, step sampleBrowser busyState (.recorderStop sampleControls) = some t ∧
      t.transcribeInFlight = busyState.transcribeInFlight ++
        [{ file := ⟨3⟩, fileName := "recording.wav", source := "local",
           model_size := some "base", api_key := none }]) ∧
    (∃ t, step sampleBrowser busyState (.polishClick sampleControls) = some t ∧
      t.polishInFlight = busyState.polishInFlight ++
        [{ raw_text := "hello", provider := "openai", api_key := "key",
           company_context := "", project_context := "" }]) ∧
    (∃ t, step sampleBrowser (newNote blankPage)
        (.upload sampleControls (some (⟨1⟩, "a.wav"))) = some t ∧
      t.transcribeInFlight = (newNote blankPage).transcribeInFlight ++
        [{ file := ⟨1⟩, fileName := "a.wav", source := "local", model_size := some "base",
           api_key := none }]) := by
  have h := requests_issued_whatever_is_in_flight sampleBrowser busyState
  have h0 := requests_issued_whatever_is_in_flight sampleBrowser (newNote blankPage)
  exact ⟨by decide, by decide,
    h.1 sampleControls ⟨1⟩ "b.wav" _ (by decide),
    h.2.1 sampleControls _ (by decide) (by decide),
    h.2.2.1 sampleControls _ (by decide),
    h0.1 sampleControls ⟨1⟩ "a.wav" _ (by decide)⟩

/-! ## The integration buttons along a run -/

theorem step_flagsFollow (dom : Browser) (s t : Sys) (e : Event) (m : Marker)
    (hstep : step dom s e = some t) (h : FlagsFollow s m) :
    FlagsFollow t ((marker s e).getD m) := by
  obtain ⟨heq, hiff⟩ := h
  cases e with
  | recordClick =>
    simp only [step, toggleRecording, Option.some.injEq] at hstep
    subst hstep
    simp only [marker, Option.getD_none]
    split_ifs
    · split
      · exact ⟨heq, hiff⟩
      · exact ⟨heq, hiff⟩
    · exact ⟨heq, hiff⟩
  | micGranted =>
    simp only [step] at hstep
    split_ifs at hstep
    simp only [Option.some.injEq] at hstep
    subst hstep
    exact ⟨heq, hiff⟩
  | micDenied =>
    simp only [step] at hstep
    split_ifs at hstep
    simp only [Option.some.injEq] at hstep
    subst hstep
    exact ⟨heq, hiff⟩
  | dataAvailable data =>
    simp only [step] at hstep
    split_ifs at hstep
    simp only [Option.some.injEq] at hstep
    subst hstep
    exact ⟨heq, hiff⟩
  | recorderStop ui =>
    simp only [step] at hstep
    split_ifs at hstep
    simp only [Option.some.injEq] at hstep
    subst hstep
    have hs : (onstop ui s.page).1.sendSlackDisabled = s.page.sendSlackDisabled := by
      simp only [onstop, handleTranscription]
      repeat' split
      all_goals rfl
    have he : (onstop ui s.page).1.sendEmailDisabled = s.page.sendEmailDisabled := by
      simp only [onstop, handleTranscription]
      repeat' split
      all_goals rfl
    simp only [FlagsFollow, marker, Option.getD_none, hs, he]
    exact ⟨heq, hiff⟩
  | upload ui file =>
    simp only [step, Option.some.injEq] at hstep
    subst hstep
    have hs : (uploadChange ui file s.page).1.sendSlackDisabled = s.page.sendSlackDisabled := by
      simp only [uploadChange, handleTranscription]
      repeat' split
      all_goals rfl
    have he : (uploadChange ui file s.page).1.sendEmailDisabled = s.page.sendEmailDisabled := by
      simp only [uploadChange, handleTranscription]
      repeat' split
      all_goals rfl
    simp only [FlagsFollow, marker, Option.getD_none, hs, he]
    exact ⟨heq, hiff⟩
  | transcribeResponse i r =>
    simp only [step] at hstep
    split at hstep
    · cases hstep
    · simp only [Option.some.injEq] at hstep
      subst hstep
      rcases r with message | ⟨ok, st, json⟩
      · exact ⟨heq, hiff⟩
      · cases ok
        · exact ⟨heq, hiff⟩
        · cases json with
          | error message => exact ⟨heq, hiff⟩
          | ok data => exact ⟨rfl, by simp [marker, handleTranscriptionResponse, switchTab,
              disableIntegrationButtons]⟩
  | polishClick ui =>
    simp only [step, Option.some.injEq] at hstep
    subst hstep
    simp only [FlagsFollow, marker, handlePolishRequest]
    by_cases h1 : jsTrim s.page.rawTranscription = ""
    · simp only [h1, if_true, alert, Option.isSome_none, Bool.false_eq_true, if_false,
        Option.getD_none]
      exact ⟨heq, hiff⟩
    · by_cases h2 : ui.polishApiKey = ""
      · simp only [h1, h2, if_true, if_false, alert, Option.isSome_none, Bool.false_eq_true,
          Option.getD_none]
        exact ⟨heq, hiff⟩
      · simp [h1, h2, disableIntegrationButtons]
  | polishResponse i r =>
    simp only [step] at hstep
    split at hstep
    · cases hstep
    · simp only [Option.some.injEq] at hstep
      subst hstep
      rcases r with message | ⟨ok, st, json⟩
      · exact ⟨heq, hiff⟩
      · cases ok
        · exact ⟨heq, hiff⟩
        · cases json with
          | error message => exact ⟨heq, hiff⟩
          | ok data => exact ⟨rfl, by simp [marker, handlePolishResponse, switchTab,
              enableIntegrationButtons]⟩
  | slackClick =>
    simp only [step] at hstep
    split_ifs at hstep
    simp only [Option.some.injEq] at hstep
    subst hstep
    have hs : (sendToSlack dom.innerText s.page).1.sendSlackDisabled = s.page.sendSlackDisabled := by
      simp only [sendToSlack]
      repeat' split
      all_goals rfl
    have he : (sendToSlack dom.innerText s.page).1.sendEmailDisabled = s.page.sendEmailDisabled := by
      simp only [sendToSlack]
      repeat' split
      all_goals rfl
    simp only [FlagsFollow, marker, Option.getD_none, hs, he]
    exact ⟨heq, hiff⟩
  | slackResponse i r =>
    simp only [step] at hstep
    split at hstep
    · cases hstep
    · simp only [Option.some.injEq] at hstep
      subst hstep
      rcases r with message | ⟨ok, st, json⟩
      · exact ⟨heq, hiff⟩
      · cases ok
        · exact ⟨heq, hiff⟩
        · exact ⟨heq, hiff⟩
  | emailClick =>
    simp only [step] at hstep
    split_ifs at hstep
    simp only [Option.some.injEq] at hstep
    subst hstep
    have hs : (sendByEmail s.page).1.sendSlackDisabled = s.page.sendSlackDisabled := by
      simp only [sendByEmail]
      repeat' split
      all_goals rfl
    have he : (sendByEmail s.page).1.sendEmailDisabled = s.page.sendEmailDisabled := by
      simp only [sendByEmail]
      repeat' split
      all_goals rfl
    simp only [FlagsFollow, marker, Option.getD_none, hs, he]
    exact ⟨heq, hiff⟩
  | emailResponse i r =>
    simp only [step] at hstep
    split at hstep
    · cases hstep
    · simp only [Option.some.injEq] at hstep
      subst hstep
      rcases r with message | ⟨ok, st, json⟩
      · exact ⟨heq, hiff⟩
      · cases ok
        · exact ⟨heq, hiff⟩
        · exact ⟨heq, hiff⟩
  | newClick =>
    simp only [step, Option.some.injEq] at hstep
    subst hstep
    exact ⟨rfl, by simp [marker, createNewNote, switchTab, disableIntegrationButtons]⟩
  | settingsSubmit cfg =>
    simp only [step, Option.some.injEq] at hstep
    subst hstep
    exact ⟨heq, hiff⟩
  | tabClick tabId =>
    simp only [step, Option.some.injEq] at hstep
    subst hstep
    exact ⟨heq, hiff⟩

theorem run_flagsFollow (dom : Browser) (evs : List Event) (s t : Sys)
    (m : Marker) (hrun : run dom s evs = some t) (h : FlagsFollow s m) :
    FlagsFollow t (lastMarker dom marker m s evs) := by
  induction evs generalizing s m with
  | nil =>
    simp only [run, Option.some.injEq] at hrun
    subst hrun
    exact h
  | cons e es ih =>
    simp only [run] at hrun
    simp only [lastMarker]
    cases hstep : step dom s e with
    | none => simp [hstep] at hrun
    | some u =>
      simp only [hstep] at hrun
      exact ih u _ hrun (step_flagsFollow dom s u e m hstep h)

theorem lifecycleMarker_getD (s : Sys) (e : Event) (m k : Marker)
    (h : k = .polished → m = .polished)
    (hk : (lifecycleMarker s e).getD k = .polished) : (marker s e).getD m = .polished := by
  cases e with
  | upload ui file =>
    simp only [lifecycleMarker] at hk
    split_ifs at hk
    · cases hk
    · exact h hk
  | recorderStop ui =>
    simp only [lifecycleMarker] at hk
    split_ifs at hk
    · cases hk
    · exact h hk
  | recordClick => exact h hk
  | micGranted => exact h hk
  | micDenied => exact h hk
  | dataAvailable data => exact h hk
  | slackClick => exact h hk
  | slackResponse i r => exact h hk
  | emailClick => exact h hk
  | emailResponse i r => exact h hk
  | settingsSubmit cfg => exact h hk
  | tabClick tabId => exact h hk
  | newClick => cases hk
  | polishClick ui =>
    simp only [lifecycleMarker, marker] at hk ⊢
    split_ifs at hk ⊢
    · cases hk
    · exact h hk
  | transcribeResponse i r =>
    rcases r with message | ⟨ok, st, json⟩
    · exact h hk
    · cases ok
      · exact h hk
      · cases json with
        | error message => exact h hk
        | ok data => cases hk
  | polishResponse i r =>
    rcases r with message | ⟨ok, st, json⟩
    · exact h hk
    · cases ok
      · exact h hk
      · cases json with
        | error message => exact h hk
        | ok data => rfl

theorem lastMarker_lifecycle (dom : Browser) (evs : List Event) (s : Sys)
    (m k : Marker) (h : k = .polished → m = .polished)
    (hk : lastMarker dom lifecycleMarker k s evs = .polished) :
    lastMarker dom marker m s evs = .polished := by
  induction evs generalizing s m k with
  | nil => exact h hk
  | cons e es ih =>
    simp only [lastMarker] at hk ⊢
    cases hstep : step dom s e with
    | none =>
      simp only [hstep] at hk ⊢
      exact h hk
    | some u =>
      simp only [hstep] at hk ⊢
      exact ih u _ _ (lifecycleMarker_getD s e m k h) hk

/-- C1, as stated, fails in both directions.  After a successful polish an upload
issues a transcription request and the buttons stay enabled while it is in
flight; and after a successful polish a second polish request that fails leaves
the buttons disabled although the last change of content was a successful
polish and nothing is in flight. -/
theorem buttons_enabled_while_transcribing :
    (run sampleBrowser (newNote blankPage)
        [.upload sampleControls (some (⟨1⟩, "a.wav")),
         .transcribeResponse 0 (.response true "OK" (.ok ⟨some "hello"⟩)),
         .polishClick sampleControls,
         .polishResponse 0 (.response true "OK" (.ok ⟨some "<p>Hello</p>"⟩)),
         .upload sampleControls (some (⟨1⟩, "b.wav"))]).map
      (fun s => (integrationEnabled s.page, s.transcribeInFlight.length)) = some (true, 1) ∧
    (run sampleBrowser (newNote blankPage)
        [.upload sampleControls (some (⟨1⟩, "a.wav")),
         .transcribeResponse 0 (.response true "OK" (.ok ⟨some "hello"⟩)),
         .polishClick sampleControls,
         .polishResponse 0 (.response true "OK" (.ok ⟨some "<p>Hello</p>"⟩)),
         .polishClick sampleControls,
         .polishResponse 0 (.response false "Bad Gateway" (.error "no body"))]).map
      (fun s => (integrationEnabled s.page, s.page.polishedNote,
                 s.transcribeInFlight.length, s.polishInFlight.length))
      = some (false, "<p>Hello</p>", 0, 0) := by
  decide

/-- C1, amended: in every state reachable from the state left by `createNewNote`
the two buttons carry the same flag; if they are enabled, then of the events
`createNewNote`, successful transcription response, polish request issued and
successful polish response the most recent is a successful polish response;
conversely, if the most recent of those events and of the transcription requests
issued is a successful polish response, they are enabled; and a polish request
that is issued leaves them disabled before its response arrives. -/
theorem buttons_follow_last_marker (dom : Browser) (p : Page)
    (evs : List Event) (s : Sys) (hrun : run dom (newNote p) evs = some s) :
    s.page.sendSlackDisabled = s.page.sendEmailDisabled ∧
    (integrationEnabled s.page = true →
      lastMarker dom marker .reset (newNote p) evs = .polished) ∧
    (lastMarker dom lifecycleMarker .reset (newNote p) evs = .polished →
      integrationEnabled s.page = true) ∧
    (∀ ui payload, (handlePolishRequest ui s.page).2 = some payload →
      integrationEnabled (handlePolishRequest ui s.page).1 = false) := by
  have h0 : FlagsFollow (newNote p) .reset := by
    refine ⟨rfl, ?_⟩
    simp [newNote, createNewNote, switchTab, disableIntegrationButtons]
  obtain ⟨heq, hiff⟩ := run_flagsFollow dom evs (newNote p) s .reset hrun h0
  have hen : integrationEnabled s.page = true ↔ s.page.sendSlackDisabled = false := by
    simp only [integrationEnabled, ← heq]
    cases s.page.sendSlackDisabled <;> simp
  refine ⟨heq, ?_, ?_, ?_⟩
  · intro h
    exact hiff.mp (hen.mp h)
  · intro h
    exact hen.mpr (hiff.mpr
      (lastMarker_lifecycle dom evs (newNote p) .reset .reset (fun hk => hk) h))
  · intro ui payload hp
    unfold handlePolishRequest at hp ⊢
    by_cases h1 : jsTrim s.page.rawTranscription = ""
    · simp [h1] at hp
    · by_cases h2 : ui.polishApiKey = ""
      · simp [h1, h2] at hp
      · simp [h1, h2, integrationEnabled, disableIntegrationButtons]

/-- C1, amended, on the run upload, response, polish request, polish response. -/
theorem buttons_follow_last_marker_witness :
    ∃ s, run sampleBrowser (newNote blankPage)
        [.upload sampleControls (some (⟨1⟩, "a.wav")),
         .transcribeResponse 0 (.response true "OK" (.ok ⟨some "hello"⟩)),
         .polishClick sampleControls,
         .polishResponse 0 (.response true "OK" (.ok ⟨some "<p>Hello</p>"⟩))] = some s ∧
      s.page.sendSlackDisabled = s.page.sendEmailDisabled ∧
      integrationEnabled s.page = true ∧
      lastMarker sampleBrowser marker .reset (newNote blankPage)
        [.upload sampleControls (some (⟨1⟩, "a.wav")),
         .transcribeResponse 0 (.response true "OK" (.ok ⟨some "hello"⟩)),
         .polishClick sampleControls,
         .polishResponse 0 (.response true "OK" (.ok ⟨some "<p>Hello</p>"⟩))] = .polished ∧
      integrationEnabled (handlePolishRequest sampleControls s.page).1 = false := by
  refine ⟨_, rfl, ?_⟩
  have h := buttons_follow_last_marker sampleBrowser blankPage
    [.upload sampleControls (some (⟨1⟩, "a.wav")),
     .transcribeResponse 0 (.response true "OK" (.ok ⟨some "hello"⟩)),
     .polishClick sampleControls,
     .polishResponse 0 (.response true "OK" (.ok ⟨some "<p>Hello</p>"⟩))] _ rfl
  have hen := h.2.2.1 (by decide)
  exact ⟨h.1, hen, h.2.1 hen, h.2.2.2 sampleControls _ rfl⟩

/-! ## Where the polished content comes from -/

theorem handlePolishRequest_issues (ui : Controls) (p : Page) (payload : PolishPayload)
    (h : (handlePolishRequest ui p).2 = some payload) :
    jsTrim p.rawTranscription ≠ "" ∧ payload.raw_text = jsTrim p.rawTranscription ∧
    (handlePolishRequest ui p).1.polishedNote = p.polishedNote := by
  unfold handlePolishRequest at h ⊢
  by_cases h1 : jsTrim p.rawTranscription = ""
  · simp [h1] at h
  · by_cases h2 : ui.polishApiKey = ""
    · simp [h1, h2] at h
    · simp only [h1, h2, if_false, Option.some.injEq] at h
      subst h
      simp [h1, h2, disableIntegrationButtons]

theorem step_polishInFlight (dom : Browser) (s t : Sys) (e : Event)
    (hstep : step dom s e = some t) (payload : PolishPayload)
    (hmem : payload ∈ t.polishInFlight) :
    payload ∈ s.polishInFlight ∨
      ∃ ui, e = .polishClick ui ∧ (handlePolishRequest ui s.page).2 = some payload := by
  cases e with
  | recordClick =>
    simp only [step, toggleRecording, Option.some.injEq] at hstep
    subst hstep
    left
    revert hmem
    split_ifs
    · split <;> exact id
    · exact id
  | micGranted =>
    simp only [step] at hstep
    split_ifs at hstep
    simp only [Option.some.injEq] at hstep
    subst hstep
    exact Or.inl hmem
  | micDenied =>
    simp only [step] at hstep
    split_ifs at hstep
    simp only [Option.some.injEq] at hstep
    subst hstep
    exact Or.inl hmem
  | dataAvailable data =>
    simp only [step] at hstep
    split_ifs at hstep
    simp only [Option.some.injEq] at hstep
    subst hstep
    exact Or.inl hmem
  | recorderStop ui =>
    simp only [step] at hstep
    split_ifs at hstep
    simp only [Option.some.injEq] at hstep
    subst hstep
    exact Or.inl hmem
  | upload ui file =>
    simp only [step, Option.some.injEq] at hstep
    subst hstep
    exact Or.inl hmem
  | transcribeResponse i r =>
    simp only [step] at hstep
    split at hstep
    · cases hstep
    · simp only [Option.some.injEq] at hstep
      subst hstep
      exact Or.inl hmem
  | polishClick ui =>
    simp only [step, Option.some.injEq] at hstep
    subst hstep
    simp only at hmem
    cases hreq : (handlePolishRequest ui s.page).2 with
    | none =>
      rw [hreq] at hmem
      exact Or.inl hmem
    | some a =>
      rw [hreq] at hmem
      simp only [issue, List.mem_append, List.mem_singleton] at hmem
      rcases hmem with hmem | hmem
      · exact Or.inl hmem
      · subst hmem
        exact Or.inr ⟨ui, rfl, hreq⟩
  | polishResponse i r =>
    simp only [step] at hstep
    split at hstep
    · cases hstep
    · simp only [Option.some.injEq] at hstep
      subst hstep
      exact Or.inl (List.mem_of_mem_eraseIdx hmem)
  | slackClick =>
    simp only [step] at hstep
    split_ifs at hstep
    simp only [Option.some.injEq] at hstep
    subst hstep
    exact Or.inl hmem
  | slackResponse i r =>
    simp only [step] at hstep
    split at hstep
    · cases hstep
    · simp only [Option.some.injEq] at hstep
      subst hstep
      exact Or.inl hmem
  | emailClick =>
    simp only [step] at hstep
    split_ifs at hstep
    simp only [Option.some.injEq] at hstep
    subst hstep
    exact Or.inl hmem
  | emailResponse i r =>
    simp only [step] at hstep
    split at hstep
    · cases hstep
    · simp only [Option.some.injEq] at hstep
      subst hstep
      exact Or.inl hmem
  | newClick =>
    simp only [step, Option.some.injEq] at hstep
    subst hstep
    exact Or.inl hmem
  | settingsSubmit cfg =>
    simp only [step, Option.some.injEq] at hstep
    subst hstep
    exact Or.inl hmem
  | tabClick tabId =>
    simp only [step, Option.some.injEq] at hstep
    subst hstep
    exact Or.inl hmem

theorem step_polishedNote (dom : Browser) (s t : Sys) (e : Event)
    (hstep : step dom s e = some t) :
    t.page.polishedNote = s.page.polishedNote ∨ t.page.polishedNote = "" ∨
      ∃ i statusText data payload,
        e = .polishResponse i (.response true statusText (.ok data)) ∧
        s.polishInFlight.get? i = some payload ∧
        t.page.polishedNote =
          (handlePolishResponse dom.innerHTML (.response true statusText (.ok data)) s.page).polishedNote := by
  cases e with
  | recordClick =>
    simp only [step, toggleRecording, Option.some.injEq] at hstep
    subst hstep
    left
    split_ifs
    · split <;> rfl
    · rfl
  | micGranted =>
    simp only [step] at hstep
    split_ifs at hstep
    simp only [Option.some.injEq] at hstep
    subst hstep
    exact Or.inl rfl
  | micDenied =>
    simp only [step] at hstep
    split_ifs at hstep
    simp only [Option.some.injEq] at hstep
    subst hstep
    exact Or.inl rfl
  | dataAvailable data =>
    simp only [step] at hstep
    split_ifs at hstep
    simp only [Option.some.injEq] at hstep
    subst hstep
    exact Or.inl rfl
  | recorderStop ui =>
    simp only [step] at hstep
    split_ifs at hstep
    simp only [Option.some.injEq] at hstep
    subst hstep
    left
    simp only [onstop, handleTranscription]
    repeat' split
    all_goals rfl
  | upload ui file =>
    simp only [step, Option.some.injEq] at hstep
    subst hstep
    left
    simp only [uploadChange, handleTranscription]
    repeat' split
    all_goals rfl
  | transcribeResponse i r =>
    simp only [step] at hstep
    split at hstep
    · cases hstep
    · simp only [Option.some.injEq] at hstep
      subst hstep
      rcases r with message | ⟨ok, st, json⟩
      · exact Or.inl rfl
      · cases ok
        · exact Or.inl rfl
        · cases json with
          | error message => exact Or.inl rfl
          | ok data => exact Or.inr (Or.inl rfl)
  | polishClick ui =>
    simp only [step, Option.some.injEq] at hstep
    subst hstep
    left
    simp only [handlePolishRequest]
    repeat' split
    all_goals rfl
  | polishResponse i r =>
    simp only [step] at hstep
    split at hstep
    · cases hstep
    · rename_i payload hget
      simp only [Option.some.injEq] at hstep
      subst hstep
      rcases r with message | ⟨ok, st, json⟩
      · exact Or.inl rfl
      · cases ok
        · exact Or.inl rfl
        · cases json with
          | error message => exact Or.inl rfl
          | ok data => exact Or.inr (Or.inr ⟨i, st, data, payload, rfl, hget, rfl⟩)
  | slackClick =>
    simp only [step] at hstep
    split_ifs at hstep
    simp only [Option.some.injEq] at hstep
    subst hstep
    left
    simp only [sendToSlack]
    repeat' split
    all_goals rfl
  | slackResponse i r =>
    simp only [step] at hstep
    split at hstep
    · cases hstep
    · simp only [Option.some.injEq] at hstep
      subst hstep
      rcases r with message | ⟨ok, st, json⟩
      · exact Or.inl rfl
      · cases ok <;> exact Or.inl rfl
  | emailClick =>
    simp only [step] at hstep
    split_ifs at hstep
    simp only [Option.some.injEq] at hstep
    subst hstep
    left
    simp only [sendByEmail]
    repeat' split
    all_goals rfl
  | emailResponse i r =>
    simp only [step] at hstep
    split at hstep
    · cases hstep
    · simp only [Option.some.injEq] at hstep
      subst hstep
      rcases r with message | ⟨ok, st, json⟩
      · exact Or.inl rfl
      · cases ok <;> exact Or.inl rfl
  | newClick =>
    simp only [step, Option.some.injEq] at hstep
    subst hstep
    exact Or.inr (Or.inl rfl)
  | settingsSubmit cfg =>
    simp only [step, Option.some.injEq] at hstep
    subst hstep
    exact Or.inl rfl
  | tabClick tabId =>
    simp only [step, Option.some.injEq] at hstep
    subst hstep
    exact Or.inl rfl

theorem issuedWithText_concat (dom : Browser) (s0 : Sys) (evs : List Event)
    (e : Event) (payload : PolishPayload) (h : IssuedWithText dom s0 evs payload) :
    IssuedWithText dom s0 (evs ++ [e]) payload := by
  obtain ⟨pre, ui, post, sIss, hevs, hrun, hreq, hraw⟩ := h
  exact ⟨pre, ui, post ++ [e], sIss, by rw [hevs]; simp, hrun, hreq, hraw⟩

theorem writtenByPolish_concat (dom : Browser) (s0 : Sys) (evs : List Event)
    (e : Event) (v : String) (t : Sys) (h : WrittenByPolish dom s0 evs v)
    (hrun : run dom s0 (evs ++ [e]) = some t) (hv : t.page.polishedNote = v) :
    WrittenByPolish dom s0 (evs ++ [e]) v := by
  obtain ⟨pre, i, st, data, post, sMid, payload, hevs, hmid, hget, hiss, hval, hconst⟩ := h
  refine ⟨pre, i, st, data, post ++ [e], sMid, payload, by rw [hevs]; simp, hmid, hget, hiss,
    hval, ?_⟩
  intro post1 u hpre hu
  rcases List.prefix_concat_iff.mp hpre with hfull | hold
  · subst hfull
    have hsame : pre ++ Event.polishResponse i (.response true st (.ok data)) :: (post ++ [e])
        = evs ++ [e] := by rw [hevs]; simp
    rw [hsame, hrun] at hu
    cases hu
    exact hv
  · exact hconst post1 u hold hu

theorem run_polish_provenance (dom : Browser) (s0 : Sys)
    (hflight : s0.polishInFlight = []) (hnote : s0.page.polishedNote = "")
    (evs : List Event) :
    ∀ s, run dom s0 evs = some s →
      (∀ payload ∈ s.polishInFlight, IssuedWithText dom s0 evs payload) ∧
      (s.page.polishedNote ≠ "" → WrittenByPolish dom s0 evs s.page.polishedNote) := by
  induction evs using List.reverseRecOn with
  | nil =>
    intro s hrun
    simp only [run, Option.some.injEq] at hrun
    subst hrun
    refine ⟨?_, fun h => absurd hnote h⟩
    intro payload hmem
    rw [hflight] at hmem
    cases hmem
  | append_singleton evs e ih =>
    intro t hrun
    have hrun2 := hrun
    rw [run_concat] at hrun2
    cases hs : run dom s0 evs with
    | none => simp [hs] at hrun2
    | some s =>
      rw [hs, Option.some_bind] at hrun2
      obtain ⟨ihFlight, ihNote⟩ := ih s hs
      refine ⟨?_, ?_⟩
      · intro payload hmem
        rcases step_polishInFlight dom s t e hrun2 payload hmem with hold | ⟨ui, he, hreq⟩
        · exact issuedWithText_concat dom s0 evs e payload (ihFlight payload hold)
        · subst he
          exact ⟨evs, ui, [], s, rfl, hs, hreq,
            (handlePolishRequest_issues ui s.page payload hreq).1⟩
      · intro hne
        rcases step_polishedNote dom s t e hrun2 with hsame | hempty |
            ⟨i, st, data, payload, he, hget, hval⟩
        · have hne2 : s.page.polishedNote ≠ "" := by rw [← hsame]; exact hne
          have hw := ihNote hne2
          rw [← hsame] at hw
          exact writtenByPolish_concat dom s0 evs e _ t hw hrun rfl
        · exact absurd hempty hne
        · subst he
          refine ⟨evs, i, st, data, [], s, payload, rfl, hs, hget,
            ihFlight payload (List.get?_mem hget), hval, ?_⟩
          intro post1 u hpre hu
          have hnil : post1 = [] := List.prefix_nil.mp hpre
          subst hnil
          rw [hrun] at hu
          cases hu
          rfl

/-- C8: along every sequence of handler steps from the state left by
`createNewNote`, if the polished content is non-empty then it was written by a
successful polish response whose request was issued by `handlePolishRequest` in
a state where the trimmed raw text was non-empty (and it has not changed since);
and `sendToSlack` and `sendByEmail` issue a request only when the polished
content is non-empty (the rendering of empty markup being empty). -/
theorem polished_content_provenance (dom : Browser)
    (hr : dom.innerText "" = "") (p : Page) (evs : List Event) (s : Sys)
    (hrun : run dom (newNote p) evs = some s) :
    (s.page.polishedNote ≠ "" →
      WrittenByPolish dom (newNote p) evs s.page.polishedNote) ∧
    (∀ payload, (sendToSlack dom.innerText s.page).2 = some payload →
      s.page.polishedNote ≠ "") ∧
    (∀ payload, (sendByEmail s.page).2 = some payload → s.page.polishedNote ≠ "") := by
  refine ⟨(run_polish_provenance dom (newNote p) rfl rfl evs s hrun).2, ?_, ?_⟩
  · intro payload hsend hempty
    simp [sendToSlack, hempty, hr] at hsend
  · intro payload hsend hempty
    simp [sendByEmail, hempty] at hsend

/-- C8, on the run upload, response "hello", polish request, response
`<p>Hello</p>`: the polished content was written by that response, and both
senders, once configured, dispatch it. -/
theorem polished_content_provenance_witness :
    sampleBrowser.innerText "" = "" ∧
    (run sampleBrowser (newNote blankPage)
        [.upload sampleControls (some (⟨1⟩, "a.wav")),
         .transcribeResponse 0 (.response true "OK" (.ok ⟨some "hello"⟩)),
         .polishClick sampleControls,
         .polishResponse 0 (.response true "OK" (.ok ⟨some "<p>Hello</p>"⟩))]).map
      (fun s => s.page.polishedNote) = some "<p>Hello</p>" ∧
    WrittenByPolish sampleBrowser (newNote blankPage)
      [.upload sampleControls (some (⟨1⟩, "a.wav")),
       .transcribeResponse 0 (.response true "OK" (.ok ⟨some "hello"⟩)),
       .polishClick sampleControls,
       .polishResponse 0 (.response true "OK" (.ok ⟨some "<p>Hello</p>"⟩))]
      "<p>Hello</p>" := by
  have h := polished_content_provenance sampleBrowser (by decide) blankPage
    [.upload sampleControls (some (⟨1⟩, "a.wav")),
     .transcribeResponse 0 (.response true "OK" (.ok ⟨some "hello"⟩)),
     .polishClick sampleControls,
     .polishResponse 0 (.response true "OK" (.ok ⟨some "<p>Hello</p>"⟩))] _ rfl
  exact ⟨by decide, by decide, h.1 (by decide)⟩

end DictationAI
